import Mathlib

/-!
# Verification of the Topo-to-STL geometry core

Shallow embedding of the geometry core of
`src/topo_to_stl_シンプル_3_d地図メーカー（react）.jsx`:

* `clamp`, `viridis` — utility functions (source lines 11–29);
* `calcSteps` — the decimation planner (source lines 288–299);
* `buildSolidGeometry` — the solid mesh builder (source lines 301–452),
  modelled as a family of definitions over a `BuildInput` record, one per
  local value of the source function;
* `scalePositionsFromGeometry` — the export scaling helper (source lines
  34–43).

JavaScript numbers are modelled as real numbers (`ℝ`); integer-valued
quantities (grid shape, strides, vertex indices) are modelled as `ℕ`.
`Math.ceil(a / b)` on natural inputs is modelled by `ceilDiv`.
-/

namespace TopoStl

/-- Source lines 11–13: `clamp(n, min, max) = Math.max(min, Math.min(max, n))`. -/
def clamp {α : Type} [LinearOrder α] (n mi ma : α) : α :=
  max mi (min ma n)

/-- Source line 31: `const MAX_DIM = 1200`. -/
def MAX_DIM : ℕ := 1200

/-- Source line 32: `const MAX_VERTICES = 1_500_000`. -/
def MAX_VERTICES : ℕ := 1500000

/-- `Math.ceil(a / b)` for natural `a`, `b` (the source only applies it to
nonnegative integer-valued quantities). For `b = 0` this yields `0`;
the source never divides by zero (`maxDim ≥ 100`, strides `≥ 1`). -/
def ceilDiv (a b : ℕ) : ℕ := (a + b - 1) / b

/-- Source lines 293–297: the `while` loop of `calcSteps`,
`let factor = 1; while (estRows * estCols * 2 > MAX_VERTICES) { factor++; if (factor > 20) break; }`.
The loop guard `over` does not mention `factor`, so it is loop-invariant;
the loop body runs at most 20 times thanks to the `break`, which the `fuel`
argument (called with `20`) makes structural. -/
def stepLoop (over : Bool) : ℕ → ℕ → ℕ
  | 0, factor => factor
  | fuel + 1, factor =>
    if over then
      if factor + 1 > 20 then factor + 1
      else stepLoop over fuel (factor + 1)
    else factor

/-- The pair of strides returned by `calcSteps`. -/
structure Steps where
  stepY : ℕ
  stepX : ℕ
deriving DecidableEq

/-- Source lines 288–299: `calcSteps(r, c, maxDim)`. -/
def calcSteps (r c maxDim : ℕ) : Steps :=
  let stepY := max 1 (ceilDiv r maxDim)
  let stepX := max 1 (ceilDiv c maxDim)
  let estRows := ceilDiv r stepY
  let estCols := ceilDiv c stepX
  let factor := stepLoop (decide (estRows * estCols * 2 > MAX_VERTICES)) 20 1
  ⟨stepY * factor, stepX * factor⟩

/-- Source lines 320–323: the index lookup tables
`for (let i = 0, v = 0; i < n1; i++, v += step) idx[i] = Math.min(v, lim - 1)`
(so `idx[i] = min(i * step, lim - 1)`). -/
def idxTable (n1 step lim : ℕ) : List ℕ :=
  (List.range n1).map fun i => min (i * step) (lim - 1)

/-- Source line 397: `top(r, c) = r * cols1 + c`. -/
def faceTop (cols1 r c : ℕ) : ℕ := r * cols1 + c

/-- Source line 398: `bottom(r, c) = topVerts + r * cols1 + c` with
`topVerts = rows1 * cols1`. -/
def faceBottom (rows1 cols1 r c : ℕ) : ℕ := rows1 * cols1 + (r * cols1 + c)

/-- Source lines 400–408: top-surface quads, two triangles per cell,
pushed as `(v0, v1, v3, v0, v3, v2)`. -/
def topFaces (rows1 cols1 : ℕ) : List ℕ :=
  (List.range (rows1 - 1)).flatMap fun i =>
    (List.range (cols1 - 1)).flatMap fun j =>
      [faceTop cols1 i j, faceTop cols1 i (j + 1), faceTop cols1 (i + 1) (j + 1),
       faceTop cols1 i j, faceTop cols1 (i + 1) (j + 1), faceTop cols1 (i + 1) j]

/-- Source lines 410–414: the side strip along row `0`,
pushed as `(a, A, B, a, B, b)`. -/
def northWall (rows1 cols1 : ℕ) : List ℕ :=
  (List.range (cols1 - 1)).flatMap fun j =>
    [faceTop cols1 0 j, faceBottom rows1 cols1 0 j, faceBottom rows1 cols1 0 (j + 1),
     faceTop cols1 0 j, faceBottom rows1 cols1 0 (j + 1), faceTop cols1 0 (j + 1)]

/-- Source lines 415–419: the side strip along row `rows1 - 1`,
pushed as `(a, b, B, a, B, A)`. -/
def southWall (rows1 cols1 : ℕ) : List ℕ :=
  (List.range (cols1 - 1)).flatMap fun j =>
    [faceTop cols1 (rows1 - 1) j, faceTop cols1 (rows1 - 1) (j + 1),
     faceBottom rows1 cols1 (rows1 - 1) (j + 1),
     faceTop cols1 (rows1 - 1) j, faceBottom rows1 cols1 (rows1 - 1) (j + 1),
     faceBottom rows1 cols1 (rows1 - 1) j]

/-- Source lines 420–424: the side strip along column `0`,
pushed as `(a, A, B, a, B, b)`. -/
def westWall (rows1 cols1 : ℕ) : List ℕ :=
  (List.range (rows1 - 1)).flatMap fun i =>
    [faceTop cols1 i 0, faceBottom rows1 cols1 i 0, faceBottom rows1 cols1 (i + 1) 0,
     faceTop cols1 i 0, faceBottom rows1 cols1 (i + 1) 0, faceTop cols1 (i + 1) 0]

/-- Source lines 425–429: the side strip along column `cols1 - 1`,
pushed as `(a, b, B, a, B, A)`. -/
def eastWall (rows1 cols1 : ℕ) : List ℕ :=
  (List.range (rows1 - 1)).flatMap fun i =>
    [faceTop cols1 i (cols1 - 1), faceTop cols1 (i + 1) (cols1 - 1),
     faceBottom rows1 cols1 (i + 1) (cols1 - 1),
     faceTop cols1 i (cols1 - 1), faceBottom rows1 cols1 (i + 1) (cols1 - 1),
     faceBottom rows1 cols1 i (cols1 - 1)]

/-- Source lines 431–439: bottom-surface quads with mirrored winding,
pushed as `(v0, v3, v1, v0, v2, v3)`. -/
def bottomFaces (rows1 cols1 : ℕ) : List ℕ :=
  (List.range (rows1 - 1)).flatMap fun i =>
    (List.range (cols1 - 1)).flatMap fun j =>
      [faceBottom rows1 cols1 i j, faceBottom rows1 cols1 (i + 1) (j + 1),
       faceBottom rows1 cols1 i (j + 1),
       faceBottom rows1 cols1 i j, faceBottom rows1 cols1 (i + 1) j,
       faceBottom rows1 cols1 (i + 1) (j + 1)]

/-- Source lines 396–439: the full triangle index list of
`buildSolidGeometry`, the six push loops in source order. -/
def solidFaces (rows1 cols1 : ℕ) : List ℕ :=
  topFaces rows1 cols1 ++ northWall rows1 cols1 ++ southWall rows1 cols1
    ++ westWall rows1 cols1 ++ eastWall rows1 cols1 ++ bottomFaces rows1 cols1

/-- Running minimum, the loop `if (z < acc) acc = z` started at `z` and run
over `zs`.  The source starts the accumulator at `Infinity`, so on a
nonempty collection the accumulator after the first element is that element
and the remaining iterations are exactly this fold. -/
def runMin {α : Type} [LinearOrder α] (z : α) (zs : List α) : α :=
  zs.foldl (fun a x => if x < a then x else a) z

/-- Running maximum, the loop `if (z > acc) acc = z` started at `z`
(source accumulator starts at `-Infinity`). -/
def runMax {α : Type} [LinearOrder α] (z : α) (zs : List α) : α :=
  zs.foldl (fun a x => if x > a then x else a) z

noncomputable section RealModel

/-- Source lines 18–29: the simplified viridis colormap.  With
`a = [0.280268, 0.165368, 0.476043]`, `b = [0.23393, 0.472705, 0.310964]`,
`c = [0.043831, 0.530361, 0.393395]`, `d = [2.0, 1.5, 1.0]`,
`e = [0.0, 0.5, 1.0]`, each channel is `a + b * pow(t, d) + c * pow(t, e)`
and is finally clamped into `[0, 1]` by `Math.min(1, Math.max(0, ·))`.
`Math.pow(t, 2.0)`, `pow(t, 1.0)` and `pow(t, 0.0)` are the monomials
`t ^ 2`, `t ^ 1`, `t ^ 0` (JavaScript gives `pow(t, 0) = 1` for every `t`,
matching `t ^ (0 : ℕ) = 1`); the fractional powers `pow(t, 1.5)` and
`pow(t, 0.5)` are `Real.sqrt t ^ 3` and `Real.sqrt t`, which agree with
JavaScript for every `t ≥ 0` — the only inputs the caller produces (for
`t < 0` JavaScript yields `NaN`, outside this real-number model). -/
def viridis (t : ℝ) : ℝ × ℝ × ℝ :=
  let r := 0.280268 + 0.23393 * t ^ (2 : ℕ) + 0.043831 * t ^ (0 : ℕ)
  let g := 0.165368 + 0.472705 * Real.sqrt t ^ (3 : ℕ) + 0.530361 * Real.sqrt t
  let bl := 0.476043 + 0.310964 * t ^ (1 : ℕ) + 0.393395 * t ^ (1 : ℕ)
  (min 1 (max 0 r), min 1 (max 0 g), min 1 (max 0 bl))

/-- Input record of `buildSolidGeometry` (source lines 301–309): latitude
array of length `R`, longitude array of length `C`, row-major elevation
array `Z` of length `R * C` (arrays are modelled as functions from index),
grid shape `R × C`, vertical exaggeration `exag`, base thickness `base`,
and requested maximum decimated dimension `maxDim`. -/
structure BuildInput where
  lats : ℕ → ℝ
  lons : ℕ → ℝ
  Z : ℕ → ℝ
  R : ℕ
  C : ℕ
  exag : ℝ
  base : ℝ
  maxDim : ℕ

/-- Source line 311: `calcSteps(R, C, clamp(maxDim, 100, MAX_DIM))`. -/
def bSteps (inp : BuildInput) : Steps :=
  calcSteps inp.R inp.C (clamp inp.maxDim 100 MAX_DIM)

/-- Source line 312: `rows1 = Math.ceil(R / stepY)`. -/
def bRows1 (inp : BuildInput) : ℕ := ceilDiv inp.R (bSteps inp).stepY

/-- Source line 313: `cols1 = Math.ceil(C / stepX)`. -/
def bCols1 (inp : BuildInput) : ℕ := ceilDiv inp.C (bSteps inp).stepX

/-- Source lines 320, 322: `rowsIdx[i] = Math.min(i * stepY, R - 1)`. -/
def rowsIdx (inp : BuildInput) : List ℕ :=
  idxTable (bRows1 inp) (bSteps inp).stepY inp.R

/-- Source lines 321, 323: `colsIdx[j] = Math.min(j * stepX, C - 1)`. -/
def colsIdx (inp : BuildInput) : List ℕ :=
  idxTable (bCols1 inp) (bSteps inp).stepX inp.C

/-- Source line 315: `avgLatDeg = (lats[0] + lats[lats.length - 1]) / 2`
(the latitude array has length `R`). -/
def avgLatDeg (inp : BuildInput) : ℝ := (inp.lats 0 + inp.lats (inp.R - 1)) / 2

/-- Source line 316: `avgLatRad = avgLatDeg * Math.PI / 180`. -/
def avgLatRad (inp : BuildInput) : ℝ := avgLatDeg inp * Real.pi / 180

/-- Source line 317: `mPerDegLat = 111320`. -/
def mPerDegLat : ℝ := 111320

/-- Source line 318: `mPerDegLon = 111320 * Math.cos(avgLatRad)`. -/
def mPerDegLon (inp : BuildInput) : ℝ := 111320 * Real.cos (avgLatRad inp)

/-- Source line 325: `lat0 = lats[rowsIdx[0]]`. -/
def lat0 (inp : BuildInput) : ℝ := inp.lats ((rowsIdx inp).getD 0 0)

/-- Source line 326: `lon0 = lons[colsIdx[0]]`. -/
def lon0 (inp : BuildInput) : ℝ := inp.lons ((colsIdx inp).getD 0 0)

/-- Source line 328: `getZ(i, j) = Number(Z[i * C + j]) * exag`. -/
def getZ (inp : BuildInput) (i j : ℕ) : ℝ := inp.Z (i * inp.C + j) * inp.exag

/-- Row-major list of the sampled source index pairs
`(rowsIdx[ii], colsIdx[jj])`, the iteration order of every per-vertex loop in
`buildSolidGeometry` (outer loop over `rowsIdx`, inner over `colsIdx`). -/
def sampledPairs (inp : BuildInput) : List (ℕ × ℕ) :=
  (rowsIdx inp).flatMap fun i0 => (colsIdx inp).map fun j0 => (i0, j0)

/-- The exaggerated elevations of the sampled points, in loop order
(the values visited by the min/max scan of source lines 330–340). -/
def sampleList (inp : BuildInput) : List ℝ :=
  (sampledPairs inp).map fun p => getZ inp p.1 p.2

/-- Source lines 330–340: running minimum of the sampled elevations, started
at `Infinity`.  On a nonempty sample list the accumulator after the first
element is that element, so the loop computes `runMin`; the empty case
(impossible for the well-formed inputs `R, C ≥ 1` the builder is called on,
where JavaScript would keep `Infinity`) is given the placeholder value `0`. -/
def zMinSurface (inp : BuildInput) : ℝ :=
  match sampleList inp with
  | [] => 0
  | z :: zs => runMin z zs

/-- Source lines 330–340: running maximum of the sampled elevations,
started at `-Infinity` (same remarks as for `zMinSurface`). -/
def zMaxSurface (inp : BuildInput) : ℝ :=
  match sampleList inp with
  | [] => 0
  | z :: zs => runMax z zs

/-- Source line 342: `bottomZ = zMinSurface - Math.abs(base)`. -/
def bottomZ (inp : BuildInput) : ℝ := zMinSurface inp - |inp.base|

/-- Source line 344: `topVerts = rows1 * cols1`. -/
def topVerts (inp : BuildInput) : ℕ := bRows1 inp * bCols1 inp

/-- Source lines 353–367: the top vertex written for sampled pair
`p = (i0, j0)`: `x = (lons[j0] - lon0) * mPerDegLon`,
`y = (lats[i0] - lat0) * mPerDegLat`, `z = getZ(i0, j0)`. -/
def topVert (inp : BuildInput) (p : ℕ × ℕ) : ℝ × ℝ × ℝ :=
  ((inp.lons p.2 - lon0 inp) * mPerDegLon inp,
   (inp.lats p.1 - lat0 inp) * mPerDegLat,
   getZ inp p.1 p.2)

/-- Source lines 369–380: the bottom vertex for sampled pair `p` copies the
`x` and `y` components already written for the corresponding top vertex
(`positions[baseIdx + 0]`, `positions[baseIdx + 1]`) and sets `z = bottomZ`. -/
def bottomVert (inp : BuildInput) (p : ℕ × ℕ) : ℝ × ℝ × ℝ :=
  ((topVert inp p).1, (topVert inp p).2.1, bottomZ inp)

/-- The vertex sequence of the build: the `topVerts` top vertices in loop
order (source lines 353–367) followed by the `topVerts` bottom vertices in
the same order (source lines 369–380). -/
def vertexList (inp : BuildInput) : List (ℝ × ℝ × ℝ) :=
  (sampledPairs inp).map (topVert inp) ++ (sampledPairs inp).map (bottomVert inp)

/-- The flat `positions` buffer (source `positions[p++] = x; ... = y; ... = z`):
three components per vertex, interleaved. -/
def positionsArr (inp : BuildInput) : List ℝ :=
  (vertexList inp).flatMap fun v => [v.1, v.2.1, v.2.2]

/-- Source line 382: `dz = Math.max(1e-6, zMaxSurface - zMinSurface)`. -/
def dzSurface (inp : BuildInput) : ℝ :=
  max (1e-6) (zMaxSurface inp - zMinSurface inp)

/-- Source line 387: the colormap parameter
`t = clamp((z - zMinSurface) / dz, 0, 1)` for a top vertex of elevation `z`. -/
def colorT (inp : BuildInput) (z : ℝ) : ℝ :=
  clamp ((z - zMinSurface inp) / dzSurface inp) 0 1

/-- Source lines 383–394: the final colour triple of the top vertex for
sampled pair `p`; the recolouring loop reads `z = positions[idxTop * 3 + 2]`,
which the first loop set to `getZ(i0, j0)`, and overwrites the zeros written
by the first loop with `viridis(t)`. -/
def colorTriple (inp : BuildInput) (p : ℕ × ℕ) : ℝ × ℝ × ℝ :=
  viridis (colorT inp (getZ inp p.1 p.2))

/-- The flat `colors` buffer in its final state: the viridis colours of the
top vertices (lines 383–394) followed by the fixed gray `0.2, 0.2, 0.2`
written for every bottom vertex (lines 376–378). -/
def colorsArr (inp : BuildInput) : List ℝ :=
  ((sampledPairs inp).flatMap fun p =>
    [(colorTriple inp p).1, (colorTriple inp p).2.1, (colorTriple inp p).2.2])
  ++ ((sampledPairs inp).flatMap fun _ => [(0.2 : ℝ), 0.2, 0.2])

/-- The triangle index buffer of the build (source lines 396–439). -/
def facesOf (inp : BuildInput) : List ℕ := solidFaces (bRows1 inp) (bCols1 inp)

/-- Model of the `THREE.BufferGeometry` consumed by
`scalePositionsFromGeometry`: a position attribute (one triple per vertex,
`pos.count` = length), a colour attribute and an index buffer. -/
structure BufferGeometry where
  position : List (ℝ × ℝ × ℝ)
  color : List ℝ
  index : List ℕ

/-- Model of `pos.getX(i)` on the position attribute. -/
def posGetX (g : BufferGeometry) (i : ℕ) : ℝ := (g.position.getD i (0, 0, 0)).1

/-- Model of `pos.getY(i)`. -/
def posGetY (g : BufferGeometry) (i : ℕ) : ℝ := (g.position.getD i (0, 0, 0)).2.1

/-- Model of `pos.getZ(i)`. -/
def posGetZ (g : BufferGeometry) (i : ℕ) : ℝ := (g.position.getD i (0, 0, 0)).2.2

/-- Source lines 34–43: `scalePositionsFromGeometry(g, scale)` builds a fresh
array `arr` with `arr[i*3+0] = pos.getX(i) * scale`, `arr[i*3+1] =
pos.getY(i) * scale`, `arr[i*3+2] = pos.getZ(i) * scale` for `i < pos.count`;
it only reads from `g` and returns the new array. -/
def scalePositionsFromGeometry (g : BufferGeometry) (scale : ℝ) : List ℝ :=
  (List.range g.position.length).flatMap fun i =>
    [posGetX g i * scale, posGetY g i * scale, posGetZ g i * scale]

/-- Concrete input: the 3×3 grid of the claim (and of the source's own
`runTests`): unit lat/lon axes, elevations `0..8` row-major, exaggeration 1,
base thickness 2, `maxDim = 500` (no decimation: strides 1). -/
def inpA : BuildInput :=
  { lats := fun i => (i : ℝ), lons := fun j => (j : ℝ), Z := fun k => (k : ℝ)
    R := 3, C := 3, exag := 1, base := 2, maxDim := 500 }

/-- Concrete input: a 201×201 grid with `maxDim = 100`, for which the
planner returns strides 3 and the stride walk stops at source row 198,
missing the far edge 200. -/
def inpB : BuildInput :=
  { lats := fun _ => 0, lons := fun _ => 0, Z := fun _ => 0
    R := 201, C := 201, exag := 1, base := 2, maxDim := 100 }

/-- Concrete input: a 2×2 grid of negative elevations with base thickness 0. -/
def inpNeg0 : BuildInput :=
  { lats := fun _ => 0, lons := fun _ => 0, Z := fun _ => -50
    R := 2, C := 2, exag := 1, base := 0, maxDim := 999 }

/-- Concrete input: a 2×2 grid of negative elevations with base thickness 10
(the configuration of the source's own `runTests` negative-elevation test). -/
def inpNeg10 : BuildInput :=
  { lats := fun _ => 0, lons := fun _ => 0, Z := fun _ => -50
    R := 2, C := 2, exag := 1, base := 10, maxDim := 999 }

/-- Concrete geometry with two position triples, as in the source's
`runTests` scaling test. -/
def g0 : BufferGeometry :=
  { position := [(1, 2, 3), (4, 5, 6)], color := [], index := [] }

end RealModel

section CeilDivLemmas

theorem ceilDiv_pos {a b : ℕ} (ha : 1 ≤ a) (hb : 1 ≤ b) : 1 ≤ ceilDiv a b := by
  unfold ceilDiv
  rw [Nat.le_div_iff_mul_le hb]
  omega

theorem ceilDiv_eq_pred_div_add_one {a b : ℕ} (ha : 1 ≤ a) (hb : 1 ≤ b) :
    ceilDiv a b = (a - 1) / b + 1 := by
  unfold ceilDiv
  have h : a + b - 1 = (a - 1) + b := by omega
  rw [h, Nat.add_div_right _ hb]

theorem le_ceilDiv_mul {a b : ℕ} (hb : 1 ≤ b) : a ≤ ceilDiv a b * b := by
  unfold ceilDiv
  have h1 := Nat.div_add_mod (a + b - 1) b
  have h2 : (a + b - 1) % b < b := Nat.mod_lt _ (by omega)
  rw [Nat.mul_comm]
  generalize b * ((a + b - 1) / b) = t at h1 ⊢
  generalize (a + b - 1) % b = s at h1 h2
  omega

theorem ceilDiv_le_of_le_mul {a b k : ℕ} (hb : 1 ≤ b) (h : a ≤ k * b) :
    ceilDiv a b ≤ k := by
  unfold ceilDiv
  have h2 : a + b - 1 ≤ (b - 1) + b * k := by
    have hc : k * b = b * k := Nat.mul_comm _ _
    omega
  calc (a + b - 1) / b ≤ ((b - 1) + b * k) / b := Nat.div_le_div_right h2
    _ = (b - 1) / b + k := Nat.add_mul_div_left _ _ (by omega)
    _ = k := by rw [Nat.div_eq_of_lt (by omega), Nat.zero_add]

theorem ceilDiv_le_of_le {a a' b : ℕ} (h : a ≤ a') : ceilDiv a b ≤ ceilDiv a' b :=
  Nat.div_le_div_right (by omega)

/-- Nested ceiling divisions compose: `ceil(ceil(a/b)/c) = ceil(a/(b*c))`
for `a, b, c ≥ 1`. -/
theorem ceilDiv_ceilDiv {a b c : ℕ} (ha : 1 ≤ a) (hb : 1 ≤ b) (hc : 1 ≤ c) :
    ceilDiv (ceilDiv a b) c = ceilDiv a (b * c) := by
  have h1 : ceilDiv a b = (a - 1) / b + 1 := ceilDiv_eq_pred_div_add_one ha hb
  have h2 : 1 ≤ ceilDiv a b := ceilDiv_pos ha hb
  rw [ceilDiv_eq_pred_div_add_one h2 hc, ceilDiv_eq_pred_div_add_one ha (Nat.mul_pos hb hc),
    h1, Nat.add_sub_cancel, Nat.div_div_eq_div_mul]

/-- Each down-sampled axis length is bounded by `maxDim`:
`ceil(a / ceil(a / m)) ≤ m` for `a, m ≥ 1`. -/
theorem ceilDiv_ceilDiv_self_le {a m : ℕ} (ha : 1 ≤ a) (hm : 1 ≤ m) :
    ceilDiv a (ceilDiv a m) ≤ m :=
  ceilDiv_le_of_le_mul (ceilDiv_pos ha hm)
    (le_of_le_of_eq (le_ceilDiv_mul hm) (Nat.mul_comm _ _))

end CeilDivLemmas

section StepLoopLemmas

theorem stepLoop_false (fuel factor : ℕ) : stepLoop false fuel factor = factor := by
  cases fuel <;> simp [stepLoop]

theorem stepLoop_true_run : stepLoop true 20 1 = 21 := by decide

/-- Behavioural characterisation of `calcSteps`: the loop guard never changes,
so the multiplier is `21` whenever the initial estimate exceeds the cap and `1`
otherwise. -/
theorem calcSteps_eq (r c m : ℕ) :
    calcSteps r c m =
      if ceilDiv r (max 1 (ceilDiv r m)) * ceilDiv c (max 1 (ceilDiv c m)) * 2
          > MAX_VERTICES then
        ⟨max 1 (ceilDiv r m) * 21, max 1 (ceilDiv c m) * 21⟩
      else
        ⟨max 1 (ceilDiv r m) * 1, max 1 (ceilDiv c m) * 1⟩ := by
  by_cases h : ceilDiv r (max 1 (ceilDiv r m)) * ceilDiv c (max 1 (ceilDiv c m)) * 2
      > MAX_VERTICES
  · simp only [calcSteps, h, if_pos, decide_True, stepLoop_true_run]
  · simp only [calcSteps, h, if_neg, decide_False, stepLoop_false, not_false_eq_true]

theorem calcSteps_stepY_pos (r c m : ℕ) : 1 ≤ (calcSteps r c m).stepY := by
  rw [calcSteps_eq]
  split
  · show 1 ≤ max 1 (ceilDiv r m) * 21
    exact Nat.mul_pos (Nat.lt_of_lt_of_le Nat.zero_lt_one (le_max_left _ _)) (by omega)
  · show 1 ≤ max 1 (ceilDiv r m) * 1
    exact Nat.mul_pos (Nat.lt_of_lt_of_le Nat.zero_lt_one (le_max_left _ _)) (by omega)

theorem calcSteps_stepX_pos (r c m : ℕ) : 1 ≤ (calcSteps r c m).stepX := by
  rw [calcSteps_eq]
  split
  · show 1 ≤ max 1 (ceilDiv c m) * 21
    exact Nat.mul_pos (Nat.lt_of_lt_of_le Nat.zero_lt_one (le_max_left _ _)) (by omega)
  · show 1 ≤ max 1 (ceilDiv c m) * 1
    exact Nat.mul_pos (Nat.lt_of_lt_of_le Nat.zero_lt_one (le_max_left _ _)) (by omega)

end StepLoopLemmas

section ListLemmas

theorem length_flatMap_const {α β : Type} (l : List α) (f : α → List β) (c : ℕ)
    (h : ∀ a ∈ l, (f a).length = c) : (l.flatMap f).length = l.length * c := by
  induction l with
  | nil => simp
  | cons a l ih =>
    simp only [List.flatMap_cons, List.length_append, List.length_cons]
    rw [h a (List.mem_cons_self a l), ih (fun x hx => h x (List.mem_cons_of_mem _ hx))]
    ring

theorem getD_map_of_lt {α β : Type} (f : α → β) (l : List α) (k : ℕ)
    (hk : k < l.length) (d : β) (d' : α) : (l.map f).getD k d = f (l.getD k d') := by
  rw [List.getD_eq_getElem _ _ (by simpa using hk), List.getElem_map,
    List.getD_eq_getElem _ _ hk]

theorem getD_flatMap_triple {α β : Type} (F G H : α → β) (l : List α) (i : ℕ)
    (hi : i < l.length) (d : β) (d' : α) :
    ((l.flatMap fun k => [F k, G k, H k]).getD (3 * i) d = F (l.getD i d')) ∧
    ((l.flatMap fun k => [F k, G k, H k]).getD (3 * i + 1) d = G (l.getD i d')) ∧
    ((l.flatMap fun k => [F k, G k, H k]).getD (3 * i + 2) d = H (l.getD i d')) := by
  induction l generalizing i with
  | nil => simp at hi
  | cons a l ih =>
    cases i with
    | zero => exact ⟨rfl, rfl, rfl⟩
    | succ n =>
      have hn : n < l.length := by simpa using hi
      obtain ⟨e1, e2, e3⟩ := ih n hn
      have key : ∀ r : ℕ,
          ((a :: l).flatMap fun k => [F k, G k, H k]).getD (3 * (n + 1) + r) d
            = ((l.flatMap fun k => [F k, G k, H k])).getD (3 * n + r) d := by
        intro r
        rw [List.flatMap_cons,
          List.getD_append_right _ _ _ _
            (by simp only [List.length_cons, List.length_nil]; omega)]
        congr 1
        simp only [List.length_cons, List.length_nil]
        omega
      refine ⟨?_, ?_, ?_⟩
      · rw [show 3 * (n + 1) = 3 * (n + 1) + 0 from rfl, key 0]
        rw [show 3 * n + 0 = 3 * n from rfl, e1, List.getD_cons_succ]
      · rw [key 1, e2, List.getD_cons_succ]
      · rw [key 2, e3, List.getD_cons_succ]

/-- Bound for a grid vertex index: `i * c + j < r * c` when `i < r`, `j < c`. -/
theorem cell_lt {r c i j : ℕ} (hi : i < r) (hj : j < c) : i * c + j < r * c := by
  have h1 : i * c + j < i * c + c := by omega
  have h2 : i * c + c = (i + 1) * c := by ring
  have h3 : (i + 1) * c ≤ r * c := Nat.mul_le_mul_right c hi
  omega

theorem runMin_le_mem {α : Type} [LinearOrder α] (z : α) (zs : List α) :
    ∀ x ∈ z :: zs, runMin z zs ≤ x := by
  induction zs generalizing z with
  | nil => simp [runMin]
  | cons w zs ih =>
    intro x hx
    have step : runMin z (w :: zs) = runMin (if w < z then w else z) zs := rfl
    have hmz : (if w < z then w else z) ≤ z := by
      split
      · exact le_of_lt (by assumption)
      · exact le_refl z
    have hmw : (if w < z then w else z) ≤ w := by
      split
      · exact le_refl w
      · exact le_of_not_lt (by assumption)
    rcases List.mem_cons.mp hx with h | h
    · subst h
      exact step ▸ le_trans (ih _ _ (List.mem_cons_self _ _)) hmz
    · rcases List.mem_cons.mp h with h' | h'
      · subst h'
        exact step ▸ le_trans (ih _ _ (List.mem_cons_self _ _)) hmw
      · exact step ▸ ih _ _ (List.mem_cons_of_mem _ h')

theorem runMin_mem {α : Type} [LinearOrder α] (z : α) (zs : List α) :
    runMin z zs ∈ z :: zs := by
  induction zs generalizing z with
  | nil => simp [runMin]
  | cons w zs ih =>
    have step : runMin z (w :: zs) = runMin (if w < z then w else z) zs := rfl
    rw [step]
    have h := ih (if w < z then w else z)
    rcases List.mem_cons.mp h with h' | h'
    · rw [h']
      split
      · exact List.mem_cons_of_mem _ (List.mem_cons_self _ _)
      · exact List.mem_cons_self _ _
    · exact List.mem_cons_of_mem _ (List.mem_cons_of_mem _ h')

end ListLemmas

section FaceLemmas

theorem length_flatMap_six {α : Type} (l : List α) (f1 f2 f3 f4 f5 f6 : α → ℕ) :
    (l.flatMap fun x => [f1 x, f2 x, f3 x, f4 x, f5 x, f6 x]).length = l.length * 6 :=
  length_flatMap_const _ _ 6 (fun _ _ => rfl)

theorem length_flatMap_range {n c : ℕ} {f : ℕ → List ℕ} (h : ∀ a, (f a).length = c) :
    ((List.range n).flatMap f).length = n * c := by
  rw [length_flatMap_const _ _ c (fun a _ => h a), List.length_range]

theorem topFaces_length (r c : ℕ) :
    (topFaces r c).length = (r - 1) * ((c - 1) * 6) :=
  length_flatMap_range fun a =>
    (length_flatMap_six _ _ _ _ _ _ _).trans (by rw [List.length_range])

theorem northWall_length (r c : ℕ) : (northWall r c).length = (c - 1) * 6 :=
  (length_flatMap_six _ _ _ _ _ _ _).trans (by rw [List.length_range])

theorem southWall_length (r c : ℕ) : (southWall r c).length = (c - 1) * 6 :=
  (length_flatMap_six _ _ _ _ _ _ _).trans (by rw [List.length_range])

theorem westWall_length (r c : ℕ) : (westWall r c).length = (r - 1) * 6 :=
  (length_flatMap_six _ _ _ _ _ _ _).trans (by rw [List.length_range])

theorem eastWall_length (r c : ℕ) : (eastWall r c).length = (r - 1) * 6 :=
  (length_flatMap_six _ _ _ _ _ _ _).trans (by rw [List.length_range])

theorem bottomFaces_length (r c : ℕ) :
    (bottomFaces r c).length = (r - 1) * ((c - 1) * 6) :=
  length_flatMap_range fun a =>
    (length_flatMap_six _ _ _ _ _ _ _).trans (by rw [List.length_range])

theorem solidFaces_length (r c : ℕ) :
    (solidFaces r c).length
      = 3 * (4 * (r - 1) * (c - 1) + 4 * (r - 1) + 4 * (c - 1)) := by
  simp only [solidFaces, List.length_append, topFaces_length, northWall_length,
    southWall_length, westWall_length, eastWall_length, bottomFaces_length]
  ring

theorem faceTop_lt {r c i j : ℕ} (hi : i < r) (hj : j < c) :
    faceTop c i j < 2 * (r * c) := by
  have h := cell_lt hi hj
  unfold faceTop
  omega

theorem faceBottom_lt {r c i j : ℕ} (hi : i < r) (hj : j < c) :
    faceBottom r c i j < 2 * (r * c) := by
  have h := cell_lt hi hj
  unfold faceBottom
  omega

theorem solidFaces_index_lt (r c : ℕ) (hr : 1 ≤ r) (hc : 1 ≤ c) :
    ∀ v ∈ solidFaces r c, v < 2 * (r * c) := by
  intro v hv
  simp only [solidFaces, topFaces, northWall, southWall, westWall, eastWall,
    bottomFaces, List.mem_append, List.mem_flatMap, List.mem_range,
    List.mem_cons, List.not_mem_nil, or_false] at hv
  rcases hv with ((((h | h) | h) | h) | h) | h
  · obtain ⟨i, hi, j, hj, hv⟩ := h
    rcases hv with rfl | rfl | rfl | rfl | rfl | rfl <;>
      exact faceTop_lt (by omega) (by omega)
  · obtain ⟨j, hj, hv⟩ := h
    rcases hv with rfl | rfl | rfl | rfl | rfl | rfl <;>
      first
      | exact faceTop_lt (by omega) (by omega)
      | exact faceBottom_lt (by omega) (by omega)
  · obtain ⟨j, hj, hv⟩ := h
    rcases hv with rfl | rfl | rfl | rfl | rfl | rfl <;>
      first
      | exact faceTop_lt (by omega) (by omega)
      | exact faceBottom_lt (by omega) (by omega)
  · obtain ⟨i, hi, hv⟩ := h
    rcases hv with rfl | rfl | rfl | rfl | rfl | rfl <;>
      first
      | exact faceTop_lt (by omega) (by omega)
      | exact faceBottom_lt (by omega) (by omega)
  · obtain ⟨i, hi, hv⟩ := h
    rcases hv with rfl | rfl | rfl | rfl | rfl | rfl <;>
      first
      | exact faceTop_lt (by omega) (by omega)
      | exact faceBottom_lt (by omega) (by omega)
  · obtain ⟨i, hi, j, hj, hv⟩ := h
    rcases hv with rfl | rfl | rfl | rfl | rfl | rfl <;>
      exact faceBottom_lt (by omega) (by omega)

end FaceLemmas

section IdxLemmas

theorem idxTable_getD (n step lim i : ℕ) (hi : i < n) :
    (idxTable n step lim).getD i 0 = min (i * step) (lim - 1) := by
  unfold idxTable
  have hr : (List.range n).getD i 0 = i := by
    rw [List.getD_eq_getElem _ _ (by simpa using hi)]
    exact List.getElem_range i (by simpa using hi)
  rw [getD_map_of_lt _ _ i (by simpa using hi) 0 0, hr]

/-- Every stride-walk position stays inside the grid:
`i * step ≤ lim - 1` for `i < ceil(lim / step)` (so the `Math.min` clamp of
the lookup tables never changes a value). -/
theorem mul_step_le {lim step i : ℕ} (hlim : 1 ≤ lim) (hstep : 1 ≤ step)
    (hi : i < ceilDiv lim step) : i * step ≤ lim - 1 := by
  have hn : ceilDiv lim step = (lim - 1) / step + 1 :=
    ceilDiv_eq_pred_div_add_one hlim hstep
  have hi' : i ≤ (lim - 1) / step := by omega
  have h1 : i * step ≤ ((lim - 1) / step) * step := Nat.mul_le_mul_right step hi'
  have h2 : ((lim - 1) / step) * step ≤ lim - 1 := Nat.div_mul_le_self _ _
  omega

/-- The far edge `lim - 1` appears in the lookup table exactly when the
stride divides `lim - 1`. -/
theorem idxTable_mem_last_iff (lim step : ℕ) (hlim : 1 ≤ lim) (hstep : 1 ≤ step) :
    (lim - 1) ∈ idxTable (ceilDiv lim step) step lim ↔ step ∣ (lim - 1) := by
  unfold idxTable
  simp only [List.mem_map, List.mem_range]
  constructor
  · rintro ⟨i, hi, hv⟩
    rw [min_eq_left (mul_step_le hlim hstep hi)] at hv
    exact ⟨i, by rw [← hv, Nat.mul_comm]⟩
  · rintro ⟨k, hk⟩
    have hn : ceilDiv lim step = (lim - 1) / step + 1 :=
      ceilDiv_eq_pred_div_add_one hlim hstep
    have hq : (lim - 1) / step = k := by
      rw [hk]; exact Nat.mul_div_cancel_left k (by omega)
    refine ⟨k, by omega, ?_⟩
    rw [Nat.mul_comm k step, ← hk, min_self]

end IdxLemmas

section ClaimPlanner

/-- C1 (code evidence): for a 5000×5000 grid with `maxDim = 1200`, the
initial strides are 5 and the estimated doubled vertex count 2,000,000
exceeds the cap, so `calcSteps` enters its scaling loop; the loop guard
never involves the multiplier, so the multiplier runs to the break value 21
and the returned strides are `(105, 105)` — although the multiplier 2
(strides `(10, 10)`) already brings the doubled product under the cap.
This contradicts the claim that the chosen multiplier is the smallest
in-bound integer whose scaled strides fit the cap. -/
theorem calcSteps_loop_runs_to_bound :
    calcSteps 5000 5000 1200 = ⟨105, 105⟩ ∧
    ceilDiv 5000 (5 * 2) * ceilDiv 5000 (5 * 2) * 2 ≤ MAX_VERTICES ∧
    MAX_VERTICES < ceilDiv 5000 5 * ceilDiv 5000 5 * 2 := by
  exact ⟨by decide, by decide, by decide⟩

/-- C3: for every `rows, cols ≥ 1` and every `maxDim` in the clamped range
`[100, 1200]`, the strides returned by `calcSteps` give downsampled counts
`rows1 = ceil(rows / stepY)`, `cols1 = ceil(cols / stepX)` with
`rows1 * cols1 * 2 ≤ 1,500,000`. -/
theorem calcSteps_vertex_cap (r c m : ℕ) (hr : 1 ≤ r) (hc : 1 ≤ c)
    (hm1 : 100 ≤ m) (hm2 : m ≤ 1200) :
    ceilDiv r (calcSteps r c m).stepY * ceilDiv c (calcSteps r c m).stepX * 2
      ≤ MAX_VERTICES := by
  have hm : 1 ≤ m := by omega
  have hpr : 1 ≤ ceilDiv r m := ceilDiv_pos hr hm
  have hpc : 1 ≤ ceilDiv c m := ceilDiv_pos hc hm
  have hsy : max 1 (ceilDiv r m) = ceilDiv r m := max_eq_right hpr
  have hsx : max 1 (ceilDiv c m) = ceilDiv c m := max_eq_right hpc
  rw [calcSteps_eq]
  split
  · show ceilDiv r (max 1 (ceilDiv r m) * 21) * ceilDiv c (max 1 (ceilDiv c m) * 21) * 2
        ≤ MAX_VERTICES
    rw [hsy, hsx, ← ceilDiv_ceilDiv hr hpr (by omega),
      ← ceilDiv_ceilDiv hc hpc (by omega)]
    have hA : ceilDiv (ceilDiv r (ceilDiv r m)) 21 ≤ 58 := by
      have h1 : ceilDiv r (ceilDiv r m) ≤ 1200 :=
        le_trans (ceilDiv_ceilDiv_self_le hr hm) hm2
      have h2 : ceilDiv (ceilDiv r (ceilDiv r m)) 21 ≤ ceilDiv 1200 21 :=
        ceilDiv_le_of_le h1
      have h3 : ceilDiv 1200 21 = 58 := by decide
      omega
    have hB : ceilDiv (ceilDiv c (ceilDiv c m)) 21 ≤ 58 := by
      have h1 : ceilDiv c (ceilDiv c m) ≤ 1200 :=
        le_trans (ceilDiv_ceilDiv_self_le hc hm) hm2
      have h2 : ceilDiv (ceilDiv c (ceilDiv c m)) 21 ≤ ceilDiv 1200 21 :=
        ceilDiv_le_of_le h1
      have h3 : ceilDiv 1200 21 = 58 := by decide
      omega
    calc ceilDiv (ceilDiv r (ceilDiv r m)) 21 * ceilDiv (ceilDiv c (ceilDiv c m)) 21 * 2
        ≤ 58 * 58 * 2 := Nat.mul_le_mul (Nat.mul_le_mul hA hB) (le_refl 2)
      _ ≤ MAX_VERTICES := by decide
  · next h =>
      show ceilDiv r (max 1 (ceilDiv r m) * 1) * ceilDiv c (max 1 (ceilDiv c m) * 1) * 2
          ≤ MAX_VERTICES
      rw [Nat.mul_one, Nat.mul_one]
      omega

/-- C3 witness: the 5000×5000 grid named by the claim, with `maxDim = 1200`. -/
theorem calcSteps_vertex_cap_witness :
    1 ≤ 5000 ∧ 100 ≤ 1200 ∧ 1200 ≤ 1200 ∧
    ceilDiv 5000 (calcSteps 5000 5000 1200).stepY
        * ceilDiv 5000 (calcSteps 5000 5000 1200).stepX * 2 ≤ MAX_VERTICES :=
  ⟨by decide, by decide, by decide,
    calcSteps_vertex_cap 5000 5000 1200 (by decide) (by decide) (by decide) (by decide)⟩

/-- C2 (counterexample): for the 201×201 grid with `maxDim = 100` the
builder's planner returns `stepY = 3`, and the last valid source row
`R - 1 = 200` is NOT among the sampled row indices (the walk ends at 198):
the far edge of the grid is not always included. -/
theorem rowsIdx_far_edge_missing_cex :
    inpB.R - 1 = 200 ∧ (200 : ℕ) ∉ rowsIdx inpB ∧ (bSteps inpB).stepY = 3 := by
  exact ⟨by decide, by decide, by decide⟩

/-- C2 (amended): each downsampled row/column position `i` maps to source
index `min(i * stride, lastValidIndex)`; this clamped value always equals
`i * stride` itself (the walk never leaves the grid, so the clamp never
binds), and the far edge `rows - 1` (resp. `cols - 1`) is included among
the sampled indices exactly when the stride divides it — in particular
always when the stride is 1, but not in general when the stride does not
divide the dimension minus one. -/
theorem idxTables_spec (inp : BuildInput) (hR : 1 ≤ inp.R) (hC : 1 ≤ inp.C) :
    (∀ i < bRows1 inp,
        (rowsIdx inp).getD i 0 = min (i * (bSteps inp).stepY) (inp.R - 1) ∧
        (rowsIdx inp).getD i 0 = i * (bSteps inp).stepY ∧
        i * (bSteps inp).stepY ≤ inp.R - 1) ∧
    ((inp.R - 1) ∈ rowsIdx inp ↔ (bSteps inp).stepY ∣ (inp.R - 1)) ∧
    (∀ j < bCols1 inp,
        (colsIdx inp).getD j 0 = min (j * (bSteps inp).stepX) (inp.C - 1) ∧
        (colsIdx inp).getD j 0 = j * (bSteps inp).stepX ∧
        j * (bSteps inp).stepX ≤ inp.C - 1) ∧
    ((inp.C - 1) ∈ colsIdx inp ↔ (bSteps inp).stepX ∣ (inp.C - 1)) := by
  have hsy : 1 ≤ (bSteps inp).stepY := calcSteps_stepY_pos _ _ _
  have hsx : 1 ≤ (bSteps inp).stepX := calcSteps_stepX_pos _ _ _
  refine ⟨fun i hi => ?_, ?_, fun j hj => ?_, ?_⟩
  · have h1 : (rowsIdx inp).getD i 0 = min (i * (bSteps inp).stepY) (inp.R - 1) :=
      idxTable_getD (bRows1 inp) (bSteps inp).stepY inp.R i hi
    have h2 := mul_step_le hR hsy hi
    exact ⟨h1, by rw [h1, min_eq_left h2], h2⟩
  · exact idxTable_mem_last_iff inp.R (bSteps inp).stepY hR hsy
  · have h1 : (colsIdx inp).getD j 0 = min (j * (bSteps inp).stepX) (inp.C - 1) :=
      idxTable_getD (bCols1 inp) (bSteps inp).stepX inp.C j hj
    have h2 := mul_step_le hC hsx hj
    exact ⟨h1, by rw [h1, min_eq_left h2], h2⟩
  · exact idxTable_mem_last_iff inp.C (bSteps inp).stepX hC hsx

/-- C2 witness: the amended statement applied to the concrete 201×201 grid. -/
theorem idxTables_spec_witness :
    1 ≤ inpB.R ∧ 1 ≤ inpB.C ∧
      ((inpB.R - 1) ∈ rowsIdx inpB ↔ (bSteps inpB).stepY ∣ (inpB.R - 1)) :=
  ⟨by decide, by decide, (idxTables_spec inpB (by decide) (by decide)).2.1⟩

end ClaimPlanner

section BuildLemmas

theorem rowsIdx_length (inp : BuildInput) : (rowsIdx inp).length = bRows1 inp := by
  simp [rowsIdx, idxTable]

theorem colsIdx_length (inp : BuildInput) : (colsIdx inp).length = bCols1 inp := by
  simp [colsIdx, idxTable]

theorem sampledPairs_length (inp : BuildInput) :
    (sampledPairs inp).length = bRows1 inp * bCols1 inp := by
  have h := length_flatMap_const (rowsIdx inp)
    (fun i0 => (colsIdx inp).map fun j0 => (i0, j0)) (bCols1 inp)
    (fun a _ => by rw [List.length_map, colsIdx_length])
  rw [rowsIdx_length] at h
  exact h

theorem vertexList_length (inp : BuildInput) :
    (vertexList inp).length = 2 * (bRows1 inp * bCols1 inp) := by
  simp only [vertexList, List.length_append, List.length_map, sampledPairs_length]
  ring

theorem positionsArr_length (inp : BuildInput) :
    (positionsArr inp).length = 3 * (2 * (bRows1 inp * bCols1 inp)) := by
  have h := length_flatMap_const (vertexList inp)
    (fun v => [v.1, v.2.1, v.2.2]) 3 (fun a _ => rfl)
  rw [vertexList_length inp] at h
  rw [positionsArr, h]
  ring

theorem colorsArr_length (inp : BuildInput) :
    (colorsArr inp).length = 3 * (2 * (bRows1 inp * bCols1 inp)) := by
  have h1 := length_flatMap_const (sampledPairs inp)
    (fun p => [(colorTriple inp p).1, (colorTriple inp p).2.1, (colorTriple inp p).2.2])
    3 (fun a _ => rfl)
  have h2 := length_flatMap_const (sampledPairs inp)
    (fun _ => [(0.2 : ℝ), 0.2, 0.2]) 3 (fun a _ => rfl)
  rw [colorsArr, List.length_append, h1, h2, sampledPairs_length]
  ring

theorem bRows1_pos (inp : BuildInput) (hR : 1 ≤ inp.R) : 1 ≤ bRows1 inp :=
  ceilDiv_pos hR (calcSteps_stepY_pos _ _ _)

theorem bCols1_pos (inp : BuildInput) (hC : 1 ≤ inp.C) : 1 ≤ bCols1 inp :=
  ceilDiv_pos hC (calcSteps_stepX_pos _ _ _)

/-- Clamping into the unit interval lands in the unit interval. -/
theorem clamp_unit_mem (x : ℝ) : 0 ≤ clamp x 0 1 ∧ clamp x 0 1 ≤ 1 :=
  ⟨le_max_left _ _, max_le zero_le_one (min_le_left _ _)⟩

/-- Every output channel of the colormap lies in the unit interval, for any
input at all, because of the final output clamp `min(1, max(0, ·))`. -/
theorem viridis_channels_mem (t : ℝ) :
    (0 ≤ (viridis t).1 ∧ (viridis t).1 ≤ 1) ∧
    (0 ≤ (viridis t).2.1 ∧ (viridis t).2.1 ≤ 1) ∧
    (0 ≤ (viridis t).2.2 ∧ (viridis t).2.2 ≤ 1) :=
  ⟨⟨le_min zero_le_one (le_max_left 0 _), min_le_left _ _⟩,
   ⟨le_min zero_le_one (le_max_left 0 _), min_le_left _ _⟩,
   ⟨le_min zero_le_one (le_max_left 0 _), min_le_left _ _⟩⟩

end BuildLemmas

section ClaimBuilder

/-- C4: for the 3×3 grid with elevations 0..8, unit lat/lon axes and a
`maxDim` large enough that no decimation occurs (strides 1),
`buildSolidGeometry` emits exactly 18 vertices (54 position components) and
96 triangle indices: 24 for the 8 top triangles, 24 for the 8 bottom
triangles, 48 for the 16 side-wall triangles. -/
theorem build_3x3_counts :
    bRows1 inpA = 3 ∧ bCols1 inpA = 3 ∧
    (vertexList inpA).length = 18 ∧
    (positionsArr inpA).length = 54 ∧
    (facesOf inpA).length = 96 ∧
    (topFaces 3 3).length = 24 ∧
    (bottomFaces 3 3).length = 24 ∧
    (northWall 3 3 ++ southWall 3 3 ++ westWall 3 3 ++ eastWall 3 3).length = 48 := by
  exact ⟨by decide, by decide, by decide, by decide, by decide, by decide,
    by decide, by decide⟩

/-- C10: for every well-formed input grid (`R, C ≥ 1`), the build emits
exactly `2 * rows1 * cols1` vertices, position and colour buffers of equal
length `3 * (2 * rows1 * cols1)`, and exactly
`3 * (4*(rows1-1)*(cols1-1) + 4*(rows1-1) + 4*(cols1-1))` triangle indices,
each of which is a valid offset below the vertex count. -/
theorem mesh_buffer_counts (inp : BuildInput) (hR : 1 ≤ inp.R) (hC : 1 ≤ inp.C) :
    (vertexList inp).length = 2 * (bRows1 inp * bCols1 inp) ∧
    (positionsArr inp).length = 3 * (2 * (bRows1 inp * bCols1 inp)) ∧
    (colorsArr inp).length = (positionsArr inp).length ∧
    (facesOf inp).length
      = 3 * (4 * (bRows1 inp - 1) * (bCols1 inp - 1)
          + 4 * (bRows1 inp - 1) + 4 * (bCols1 inp - 1)) ∧
    ∀ v ∈ facesOf inp, v < 2 * (bRows1 inp * bCols1 inp) := by
  refine ⟨vertexList_length inp, positionsArr_length inp, ?_, solidFaces_length _ _,
    solidFaces_index_lt _ _ (bRows1_pos inp hR) (bCols1_pos inp hC)⟩
  rw [colorsArr_length, positionsArr_length]

/-- C10 witness: the concrete 3×3 grid. -/
theorem mesh_buffer_counts_witness :
    1 ≤ inpA.R ∧ 1 ≤ inpA.C ∧
      (vertexList inpA).length = 2 * (bRows1 inpA * bCols1 inpA) :=
  ⟨by decide, by decide, (mesh_buffer_counts inpA (by decide) (by decide)).1⟩

/-- C5: the bottom-plane elevation equals `surfaceMin - |baseThickness|`,
where `surfaceMin` is the minimum of the exaggerated elevations over the
sampled (decimated) points only (it is attained by a sampled value and is a
lower bound of all of them), and every bottom vertex has exactly the same
`(x, y)` coordinates as its corresponding top vertex, with `z = bottomZ`. -/
theorem bottom_plane_spec (inp : BuildInput) (hR : 1 ≤ inp.R) (hC : 1 ≤ inp.C) :
    (zMinSurface inp ∈ sampleList inp ∧
      ∀ z ∈ sampleList inp, zMinSurface inp ≤ z) ∧
    bottomZ inp = zMinSurface inp - |inp.base| ∧
    ∀ k < bRows1 inp * bCols1 inp,
      ((vertexList inp).getD (bRows1 inp * bCols1 inp + k) (0, 0, 0)).1
          = ((vertexList inp).getD k (0, 0, 0)).1 ∧
      ((vertexList inp).getD (bRows1 inp * bCols1 inp + k) (0, 0, 0)).2.1
          = ((vertexList inp).getD k (0, 0, 0)).2.1 ∧
      ((vertexList inp).getD (bRows1 inp * bCols1 inp + k) (0, 0, 0)).2.2
          = bottomZ inp := by
  have hlen : (sampleList inp).length = bRows1 inp * bCols1 inp := by
    rw [sampleList, List.length_map, sampledPairs_length]
  have hpos : 0 < (sampleList inp).length := by
    rw [hlen]
    exact Nat.mul_pos (bRows1_pos inp hR) (bCols1_pos inp hC)
  obtain ⟨z, zs, hE⟩ : ∃ z zs, sampleList inp = z :: zs := by
    cases h : sampleList inp with
    | nil => rw [h] at hpos; simp at hpos
    | cons a l => exact ⟨a, l, rfl⟩
  have hmin : zMinSurface inp = runMin z zs := by
    unfold zMinSurface
    rw [hE]
  refine ⟨⟨?_, ?_⟩, rfl, ?_⟩
  · rw [hmin, hE]
    exact runMin_mem z zs
  · intro x hx
    rw [hmin]
    rw [hE] at hx
    exact runMin_le_mem z zs x hx
  · intro k hk
    have hlenT : ((sampledPairs inp).map (topVert inp)).length
        = bRows1 inp * bCols1 inp := by
      rw [List.length_map, sampledPairs_length]
    have hkP : k < (sampledPairs inp).length := by
      rw [sampledPairs_length]; exact hk
    have htop : (vertexList inp).getD k (0, 0, 0)
        = topVert inp ((sampledPairs inp).getD k (0, 0)) := by
      rw [vertexList, List.getD_append _ _ _ _ (by rw [hlenT]; exact hk)]
      exact getD_map_of_lt _ _ _ hkP _ (0, 0)
    have hbot : (vertexList inp).getD (bRows1 inp * bCols1 inp + k) (0, 0, 0)
        = bottomVert inp ((sampledPairs inp).getD k (0, 0)) := by
      rw [vertexList, List.getD_append_right _ _ _ _ (by rw [hlenT]; omega)]
      have hidx : bRows1 inp * bCols1 inp + k
          - ((sampledPairs inp).map (topVert inp)).length = k := by
        rw [hlenT]; omega
      rw [hidx]
      exact getD_map_of_lt _ _ _ hkP _ (0, 0)
    rw [htop, hbot]
    exact ⟨rfl, rfl, rfl⟩

/-- C5 witness: the concrete 3×3 grid. -/
theorem bottom_plane_spec_witness :
    1 ≤ inpA.R ∧ 1 ≤ inpA.C ∧ bottomZ inpA = zMinSurface inpA - |inpA.base| :=
  ⟨by decide, by decide, (bottom_plane_spec inpA (by decide) (by decide)).2.1⟩

/-- C6 (counterexample): on a grid with negative elevations but base
thickness 0 (a non-negative configuration), the bottom plane sits exactly at
the minimum sampled elevation, not strictly below it. -/
theorem bottomZ_zero_thickness_cex :
    (∃ k, inpNeg0.Z k < 0) ∧ ¬ bottomZ inpNeg0 < zMinSurface inpNeg0 := by
  constructor
  · exact ⟨0, by norm_num [inpNeg0]⟩
  · unfold bottomZ
    have hb : |inpNeg0.base| = 0 := by
      show |(0 : ℝ)| = 0
      exact abs_zero
    rw [hb, sub_zero]
    exact lt_irrefl _

/-- C6 (amended): for any input grid containing negative elevations and any
strictly positive base thickness, the bottom-plane elevation is strictly
less than the minimum sampled elevation (the offset is applied from the
true minimum, never clamped at zero). -/
theorem bottomZ_strictly_below (inp : BuildInput) (_hneg : ∃ k, inp.Z k < 0)
    (hbase : 0 < inp.base) : bottomZ inp < zMinSurface inp := by
  unfold bottomZ
  have h : 0 < |inp.base| := abs_pos.mpr (ne_of_gt hbase)
  linarith

/-- C6 witness: the configuration of the source's own negative-elevation
test (elevations −50, base thickness 10). -/
theorem bottomZ_strictly_below_witness :
    (∃ k, inpNeg10.Z k < 0) ∧ 0 < inpNeg10.base ∧
      bottomZ inpNeg10 < zMinSurface inpNeg10 :=
  ⟨⟨0, by norm_num [inpNeg10]⟩, by norm_num [inpNeg10],
    bottomZ_strictly_below inpNeg10 ⟨0, by norm_num [inpNeg10]⟩
      (by norm_num [inpNeg10])⟩

/-- C7: for every `t` in `[0, 1]`, the colormap returns three channel
values, each within `[0, 1]`. -/
theorem viridis_range (t : ℝ) (_h0 : 0 ≤ t) (_h1 : t ≤ 1) :
    (0 ≤ (viridis t).1 ∧ (viridis t).1 ≤ 1) ∧
    (0 ≤ (viridis t).2.1 ∧ (viridis t).2.1 ≤ 1) ∧
    (0 ≤ (viridis t).2.2 ∧ (viridis t).2.2 ≤ 1) :=
  viridis_channels_mem t

/-- C7 witness: the colormap at `t = 0`. -/
theorem viridis_range_witness :
    (0 : ℝ) ≤ 0 ∧ (0 : ℝ) ≤ 1 ∧
      ((0 ≤ (viridis 0).1 ∧ (viridis 0).1 ≤ 1) ∧
       (0 ≤ (viridis 0).2.1 ∧ (viridis 0).2.1 ≤ 1) ∧
       (0 ≤ (viridis 0).2.2 ∧ (viridis 0).2.2 ≤ 1)) :=
  ⟨le_refl 0, zero_le_one, viridis_range 0 (le_refl 0) zero_le_one⟩

/-- C8 (counterexample): `viridis` does not clamp its input before
evaluating the polynomial: at `t = 2` the red channel saturates to 1 while
`viridis(clamp(2, 0, 1)) = viridis(1)` has red channel `0.558029`, so
`viridis(2) ≠ viridis(clamp(2, 0, 1))`. -/
theorem viridis_no_input_clamp_cex : viridis 2 ≠ viridis (clamp (2 : ℝ) 0 1) := by
  have hc : clamp (2 : ℝ) 0 1 = 1 := by
    unfold clamp
    rw [min_eq_left (by norm_num : (1 : ℝ) ≤ 2),
      max_eq_right (by norm_num : (0 : ℝ) ≤ 1)]
  rw [hc]
  intro h
  have h1 := congrArg Prod.fst h
  have e2 : (viridis (2 : ℝ)).1 = 1 := by
    show min 1 (max 0 (0.280268 + 0.23393 * (2 : ℝ) ^ (2 : ℕ)
        + 0.043831 * (2 : ℝ) ^ (0 : ℕ))) = 1
    rw [max_eq_right (by norm_num), min_eq_left (by norm_num)]
  have e1 : (viridis (1 : ℝ)).1 = 0.558029 := by
    show min 1 (max 0 (0.280268 + 0.23393 * (1 : ℝ) ^ (2 : ℕ)
        + 0.043831 * (1 : ℝ) ^ (0 : ℕ))) = 0.558029
    rw [max_eq_right (by norm_num), min_eq_right (by norm_num)]
    norm_num
  rw [e2, e1] at h1
  norm_num at h1

/-- C8 (amended): the colormap itself does not clamp its input; the builder
clamps the normalised elevation `t = clamp((z - surfaceMin)/dz, 0, 1)` into
`[0, 1]` before calling the colormap, and the colormap clamps each output
channel into `[0, 1]` after evaluating the polynomial, so every channel the
builder receives lies in `[0, 1]`. -/
theorem viridis_caller_clamped (inp : BuildInput) (z : ℝ) :
    (0 ≤ colorT inp z ∧ colorT inp z ≤ 1) ∧
    (0 ≤ (viridis (colorT inp z)).1 ∧ (viridis (colorT inp z)).1 ≤ 1) ∧
    (0 ≤ (viridis (colorT inp z)).2.1 ∧ (viridis (colorT inp z)).2.1 ≤ 1) ∧
    (0 ≤ (viridis (colorT inp z)).2.2 ∧ (viridis (colorT inp z)).2.2 ≤ 1) :=
  ⟨clamp_unit_mem _, viridis_channels_mem _⟩

/-- C9: the export scaling helper returns a fresh flat array of length
`3 × vertex count` whose every component is the corresponding input
component times the factor, and its result does not depend on (and does not
modify) the geometry's colour and index data. -/
theorem scalePositions_spec (g : BufferGeometry) (scale : ℝ) :
    (scalePositionsFromGeometry g scale).length = 3 * g.position.length ∧
    (∀ i < g.position.length,
        (scalePositionsFromGeometry g scale).getD (3 * i) 0 = posGetX g i * scale ∧
        (scalePositionsFromGeometry g scale).getD (3 * i + 1) 0
          = posGetY g i * scale ∧
        (scalePositionsFromGeometry g scale).getD (3 * i + 2) 0
          = posGetZ g i * scale) ∧
    (∀ cl idx,
        scalePositionsFromGeometry { g with color := cl, index := idx } scale
          = scalePositionsFromGeometry g scale) := by
  refine ⟨?_, ?_, fun cl idx => rfl⟩
  · have h := length_flatMap_const (List.range g.position.length)
      (fun i => [posGetX g i * scale, posGetY g i * scale, posGetZ g i * scale])
      3 (fun a _ => rfl)
    rw [scalePositionsFromGeometry, h, List.length_range]
    ring
  · intro i hi
    have h := getD_flatMap_triple
      (fun k => posGetX g k * scale) (fun k => posGetY g k * scale)
      (fun k => posGetZ g k * scale)
      (List.range g.position.length) i (by simpa using hi) 0 0
    have hr : (List.range g.position.length).getD i 0 = i := by
      rw [List.getD_eq_getElem _ _ (by simpa using hi)]
      exact List.getElem_range i (by simpa using hi)
    rw [hr] at h
    exact h

/-- C9 witness: factor 1000 applied to the two-vertex geometry
`[(1,2,3), (4,5,6)]` scales the first component to 1000. -/
theorem scalePositions_spec_witness :
    0 < g0.position.length ∧
      (scalePositionsFromGeometry g0 1000).getD 0 0 = posGetX g0 0 * 1000 :=
  ⟨by decide, ((scalePositions_spec g0 1000).2.1 0 (by decide)).1⟩

end ClaimBuilder

end TopoStl
